import Mathlib

/-!
Verification development for the html-annotator storage layer.

This file gives a shallow embedding, in Lean 4, of the storage core of the
html-annotator JavaScript library:

* `src/storage.js` — the `StorageAdapter`, which sequences lifecycle hooks
  around backend operations (`_cycle`, `create`, `update`, `delete`);
* `src/storage/httpStorage.js` — the HTTP backend (`_apiRequest`, `query`,
  `_methodFor`, `_urlFor`, `_onError`);
* `src/storage/localStorage.js` — the local backend (`create`, `query`,
  `getUniqueKey`, …);
* the key-value backing `Store` wrapper over `window.localStorage`
  (`set`, `get`, `all`, `clear`, `remove`).

JavaScript objects are modelled as association lists of string-keyed JSON
values; all object accesses in the source go through property lookup, which
the list model reproduces with first-match lookup.  Property values holding
`undefined` are modelled as absent keys (no claim distinguishes a
present-but-`undefined` property from an absent one).  Machine floats never
occur in the modelled code paths; numbers are modelled as integers.
-/

/-- Model of a JavaScript/JSON value.  The constructor `circ` stands for an
object with a circular reference: a value on which `JSON.stringify` throws.
All other constructors serialize successfully (recursively). -/
inductive Val where
  | null
  | bool (b : Bool)
  | num (n : Int)
  | str (s : String)
  | arr (elems : List Val)
  | obj (fields : List (String × Val))
  | circ

/-- Fields of a JavaScript object: an association list from property names to
values.  Lookup is first-match; the JS engine keeps property names unique,
which the operations below preserve. -/
abbrev Fields := List (String × Val)

/-- Property lookup, `obj[k]`: returns `none` where JS yields `undefined`. -/
def getField : Fields → String → Option Val
  | [], _ => none
  | p :: ps, k => if p.1 = k then some p.2 else getField ps k

/-- Property assignment, `obj[k] = v`: overwrites an existing property or
appends a new one. -/
def setField : Fields → String → Val → Fields
  | [], k, v => [(k, v)]
  | p :: ps, k, v => if p.1 = k then (k, v) :: ps else p :: setField ps k v

/-- Property deletion, `delete obj[k]`. -/
def deleteKey : Fields → String → Fields
  | [], _ => []
  | p :: ps, k => if p.1 = k then deleteKey ps k else p :: deleteKey ps k

/-- Keep only the properties named `k` (the effect of the `_cycle` loop
that deletes every own property except `k`). -/
def keepOnly : Fields → String → Fields
  | [], _ => []
  | p :: ps, k => if p.1 = k then p :: keepOnly ps k else keepOnly ps k

/-- Test for an own property, `obj.hasOwnProperty(k)`. -/
def hasKey (fs : Fields) (k : String) : Bool :=
  (getField fs k).isSome

/-- Drop from `base` every property whose name also occurs in `ext`. -/
def dropKeysIn : Fields → Fields → Fields
  | [], _ => []
  | p :: ps, e => if hasKey e p.1 then dropKeysIn ps e else p :: dropKeysIn ps e

/-- jQuery `$.extend(base, ext)`: properties of `ext` overwrite those of
`base`; the result is modelled so that lookup prefers `ext`. -/
def extendFields (base ext : Fields) : Fields :=
  dropKeysIn base ext ++ ext

/-- JavaScript truthiness of a value. -/
def Val.truthy : Val → Bool
  | .null => false
  | .bool b => b
  | .num n => n != 0
  | .str s => s != ""
  | _ => true

theorem getField_setField (fs : Fields) (k j : String) (v : Val) :
    getField (setField fs k v) j =
      if j = k then some v else getField fs j := by
  induction fs with
  | nil =>
    by_cases h : j = k
    · subst h; simp [setField, getField]
    · have h2 : ¬ (k = j) := fun hh => h hh.symm
      simp [setField, getField, h, h2]
  | cons p ps ih =>
    by_cases hp : p.1 = k
    · by_cases hj : j = k
      · subst hj; simp [setField, getField, hp]
      · have h2 : ¬ (k = j) := fun hh => hj hh.symm
        simp [setField, getField, hp, hj, h2]
    · by_cases hj : p.1 = j
      · have h2 : ¬ (j = k) := fun hh => hp (hj ▸ hh)
        simp [setField, getField, hp, hj, h2]
      · simp [setField, getField, hp, hj, ih]

theorem getField_deleteKey (fs : Fields) (k j : String) :
    getField (deleteKey fs k) j =
      if j = k then none else getField fs j := by
  induction fs with
  | nil => simp [deleteKey, getField]
  | cons p ps ih =>
    by_cases hp : p.1 = k
    · by_cases hj : j = k
      · subst hj; simp [deleteKey, hp, ih]
      · have h2 : ¬ (p.1 = j) := fun hh => hj ((hp ▸ hh : k = j)).symm
        have h3 : ¬ (k = j) := fun hh => hj hh.symm
        simp [deleteKey, hp, getField, h2, ih, hj, h3]
    · by_cases hj : p.1 = j
      · have h2 : ¬ (j = k) := fun hh => hp (hj ▸ hh)
        simp [deleteKey, hp, getField, hj, h2]
      · simp [deleteKey, hp, getField, hj, ih]

theorem getField_keepOnly (fs : Fields) (k j : String) :
    getField (keepOnly fs k) j =
      if j = k then getField fs k else none := by
  induction fs with
  | nil => simp [keepOnly, getField]
  | cons p ps ih =>
    by_cases hp : p.1 = k
    · by_cases hj : j = k
      · subst hj; simp [keepOnly, hp, getField, ih]
      · have h2 : ¬ (p.1 = j) := fun hh => hj ((hp ▸ hh : k = j)).symm
        have h3 : ¬ (k = j) := fun hh => hj hh.symm
        simp [keepOnly, hp, getField, h2, ih, hj, h3]
    · by_cases hj : j = k
      · subst hj
        simp [keepOnly, hp, getField, ih]
      · simp [keepOnly, hp, ih, hj]

theorem getField_append (a b : Fields) (j : String) :
    getField (a ++ b) j =
      match getField a j with
      | some v => some v
      | none => getField b j := by
  induction a with
  | nil => simp [getField]
  | cons p ps ih =>
    by_cases hp : p.1 = j <;> simp [getField, hp, ih]

theorem getField_dropKeysIn_of_has (base ext : Fields) (j : String)
    (h : hasKey ext j = true) : getField (dropKeysIn base ext) j = none := by
  induction base with
  | nil => simp [dropKeysIn, getField]
  | cons p ps ih =>
    by_cases hp : hasKey ext p.1 = true
    · simp [dropKeysIn, hp, ih]
    · have hpj : ¬ (p.1 = j) := fun hh => hp (hh ▸ h)
      simp only [Bool.not_eq_true] at hp
      simp [dropKeysIn, hp, getField, hpj, ih]

theorem getField_dropKeysIn_of_not_has (base ext : Fields) (j : String)
    (h : hasKey ext j = false) :
    getField (dropKeysIn base ext) j = getField base j := by
  induction base with
  | nil => simp [dropKeysIn]
  | cons p ps ih =>
    by_cases hp : hasKey ext p.1 = true
    · have hpj : ¬ (p.1 = j) := fun hh => by rw [hh, h] at hp; exact absurd hp (by simp)
      simp [dropKeysIn, hp, getField, hpj, ih]
    · simp only [Bool.not_eq_true] at hp
      by_cases hpj : p.1 = j
      · subst hpj
        simp [dropKeysIn, hp, getField]
      · simp [dropKeysIn, hp, getField, hpj, ih]

theorem getField_extendFields (base ext : Fields) (j : String) :
    getField (extendFields base ext) j =
      match getField ext j with
      | some v => some v
      | none => getField base j := by
  unfold extendFields
  rw [getField_append]
  cases hg : getField ext j with
  | some v =>
    rw [getField_dropKeysIn_of_has base ext j (by simp [hasKey, hg])]
  | none =>
    rw [getField_dropKeysIn_of_not_has base ext j (by simp [hasKey, hg])]
    cases getField base j <;> rfl

/-!
Embedding of `StorageAdapter` (`src/storage.js`).

`_cycle(obj, storeFunc, beforeEvent, afterEvent)` runs the before hook with
the caller's object, builds a deep copy stripped of `_local` (the sanitized
copy), calls `this.store[storeFunc]` on it, then deletes every own property
of the caller's object except `_local`, merges in the store's return value
with `$.extend`, fires the after hook with the updated object and resolves
with that same object.

Hooks are modelled by the mutation they apply to the annotation's fields
(identity for hooks that only record); the backend by the fields it returns
for a given sanitized argument.  Object identity is modelled by an address:
`_cycle` mutates in place, so the resolved object keeps the caller's
address.  The event trace records each pipeline step in execution order,
together with the argument the step received.
-/

/-- JavaScript object with identity: an address plus its current fields. -/
structure JSObj where
  addr : Nat
  fields : Fields

/-- Observable steps of one `_cycle` run. -/
inductive Event where
  | hookEvt (name : String) (arg : Fields)
  | backendEvt (storeFunc : String) (arg : Fields)
  | mutateEvt (addr : Nat)

/-- Result of a settled `_cycle` run: the resolved object (same address as
the caller's) and the trace of observable steps. -/
structure CycleOut where
  resolved : JSObj
  trace : List Event

/-- Shallow embedding of `StorageAdapter.prototype._cycle`. -/
def StorageAdapter.cycle (obj : JSObj) (storeFunc beforeEvent afterEvent : String)
    (beforeFn : Fields → Fields) (backend : Fields → Fields)
    (afterFn : Fields → Fields) : CycleOut :=
  let f1 := beforeFn obj.fields
  let safeCopy := deleteKey f1 "_local"
  let ret := backend safeCopy
  let merged := extendFields (keepOnly f1 "_local") ret
  let f2 := afterFn merged
  { resolved := { addr := obj.addr, fields := f2 },
    trace := [Event.hookEvt beforeEvent obj.fields,
              Event.backendEvt storeFunc safeCopy,
              Event.mutateEvt obj.addr,
              Event.hookEvt afterEvent merged] }

/-- Errors thrown by the modelled JavaScript code. -/
inductive JsError where
  | typeError
  | quotaExceeded

/-- Identifier check used by `StorageAdapter.update` and `delete`:
`typeof obj.uuid === "undefined" || obj.uuid === null`. -/
def uuidMissing (fs : Fields) : Bool :=
  match getField fs "uuid" with
  | none => true
  | some Val.null => true
  | some _ => false

/-- Shallow embedding of `StorageAdapter.prototype.create`. -/
def StorageAdapter.create (obj : JSObj) (beforeFn backend afterFn : Fields → Fields) :
    Except JsError CycleOut :=
  Except.ok (StorageAdapter.cycle obj "create"
    "beforeAnnotationCreated" "annotationCreated" beforeFn backend afterFn)

/-- Shallow embedding of `StorageAdapter.prototype.update`: throws a
`TypeError` when the annotation has no identifier, before any hook or
backend step. -/
def StorageAdapter.update (obj : JSObj) (beforeFn backend afterFn : Fields → Fields) :
    Except JsError CycleOut :=
  if uuidMissing obj.fields then Except.error JsError.typeError
  else Except.ok (StorageAdapter.cycle obj "update"
    "beforeAnnotationUpdated" "annotationUpdated" beforeFn backend afterFn)

/-- Shallow embedding of `StorageAdapter.prototype.delete`. -/
def StorageAdapter.delete (obj : JSObj) (beforeFn backend afterFn : Fields → Fields) :
    Except JsError CycleOut :=
  if uuidMissing obj.fields then Except.error JsError.typeError
  else Except.ok (StorageAdapter.cycle obj "delete"
    "beforeAnnotationDeleted" "annotationDeleted" beforeFn backend afterFn)

/-- Adapter operations that run the `_cycle` pipeline. -/
inductive AdapterOp where
  | createOp
  | updateOp
  | deleteOp

/-- Dispatch an adapter operation to the corresponding method. -/
def StorageAdapter.runOp (op : AdapterOp) (obj : JSObj)
    (beforeFn backend afterFn : Fields → Fields) : Except JsError CycleOut :=
  match op with
  | .createOp => StorageAdapter.create obj beforeFn backend afterFn
  | .updateOp => StorageAdapter.update obj beforeFn backend afterFn
  | .deleteOp => StorageAdapter.delete obj beforeFn backend afterFn

/-- The store method name each operation invokes. -/
def storeFuncName : AdapterOp → String
  | .createOp => "create"
  | .updateOp => "update"
  | .deleteOp => "delete"

/-- The before hook fired by each operation. -/
def beforeHookName : AdapterOp → String
  | .createOp => "beforeAnnotationCreated"
  | .updateOp => "beforeAnnotationUpdated"
  | .deleteOp => "beforeAnnotationDeleted"

/-- The after hook fired by each operation. -/
def afterHookName : AdapterOp → String
  | .createOp => "annotationCreated"
  | .updateOp => "annotationUpdated"
  | .deleteOp => "annotationDeleted"

/-- C1: for every annotation object and every Adapter operation (create,
update, delete) that settles successfully, the resolved value is
reference-identical to the caller's object (same address), and after
settlement every own field other than the transient `_local` field has been
removed and replaced by exactly the fields of the backend's return value
(the `_local` field keeps its value unless the backend echoes one back).
Hooks that only record are modelled by the identity mutation; the before
hook may mutate arbitrarily. -/
theorem adapter_cycle_merge_semantics (op : AdapterOp) (obj : JSObj)
    (beforeFn backend : Fields → Fields) (out : CycleOut)
    (h : StorageAdapter.runOp op obj beforeFn backend id = Except.ok out) :
    out.resolved.addr = obj.addr ∧
    ∀ k, getField out.resolved.fields k =
      if k = "_local" then
        match getField (backend (deleteKey (beforeFn obj.fields) "_local")) "_local" with
        | some v => some v
        | none => getField (beforeFn obj.fields) "_local"
      else getField (backend (deleteKey (beforeFn obj.fields) "_local")) k := by
  have hout : out = StorageAdapter.cycle obj (storeFuncName op)
      (beforeHookName op) (afterHookName op) beforeFn backend id := by
    cases op with
    | createOp =>
      simp only [StorageAdapter.runOp, StorageAdapter.create, Except.ok.injEq,
        storeFuncName, beforeHookName, afterHookName] at h ⊢
      exact h.symm
    | updateOp =>
      simp only [StorageAdapter.runOp, StorageAdapter.update,
        storeFuncName, beforeHookName, afterHookName] at h ⊢
      split at h
      · exact absurd h (by simp)
      · exact (Except.ok.inj h).symm
    | deleteOp =>
      simp only [StorageAdapter.runOp, StorageAdapter.delete,
        storeFuncName, beforeHookName, afterHookName] at h ⊢
      split at h
      · exact absurd h (by simp)
      · exact (Except.ok.inj h).symm
  subst hout
  refine ⟨rfl, fun k => ?_⟩
  show getField (extendFields (keepOnly (beforeFn obj.fields) "_local")
      (backend (deleteKey (beforeFn obj.fields) "_local"))) k = _
  rw [getField_extendFields, getField_keepOnly]
  by_cases hk : k = "_local"
  · subst hk
    cases getField (backend (deleteKey (beforeFn obj.fields) "_local")) "_local" <;> simp
  · simp only [if_neg hk]
    cases getField (backend (deleteKey (beforeFn obj.fields) "_local")) k <;> rfl

/-- Witness for C1: a `create` whose backend returns only `{id: 7}` leaves
the caller's object (same address) with `id === 7`, none of its other
pre-call fields, and its transient `_local` field intact. -/
theorem adapter_cycle_merge_semantics_witness :
    StorageAdapter.runOp AdapterOp.createOp
        ⟨0, [("text", Val.str "hi"), ("_local", Val.num 1)]⟩
        id (fun _ => [("id", Val.num 7)]) id
      = Except.ok (StorageAdapter.cycle
          ⟨0, [("text", Val.str "hi"), ("_local", Val.num 1)]⟩
          "create" "beforeAnnotationCreated" "annotationCreated"
          id (fun _ => [("id", Val.num 7)]) id) ∧
    (StorageAdapter.cycle ⟨0, [("text", Val.str "hi"), ("_local", Val.num 1)]⟩
        "create" "beforeAnnotationCreated" "annotationCreated"
        id (fun _ => [("id", Val.num 7)]) id).resolved.addr = 0 ∧
    getField (StorageAdapter.cycle ⟨0, [("text", Val.str "hi"), ("_local", Val.num 1)]⟩
        "create" "beforeAnnotationCreated" "annotationCreated"
        id (fun _ => [("id", Val.num 7)]) id).resolved.fields "id"
      = some (Val.num 7) ∧
    getField (StorageAdapter.cycle ⟨0, [("text", Val.str "hi"), ("_local", Val.num 1)]⟩
        "create" "beforeAnnotationCreated" "annotationCreated"
        id (fun _ => [("id", Val.num 7)]) id).resolved.fields "text"
      = none ∧
    getField (StorageAdapter.cycle ⟨0, [("text", Val.str "hi"), ("_local", Val.num 1)]⟩
        "create" "beforeAnnotationCreated" "annotationCreated"
        id (fun _ => [("id", Val.num 7)]) id).resolved.fields "_local"
      = some (Val.num 1) := by
  have h := adapter_cycle_merge_semantics AdapterOp.createOp
    ⟨0, [("text", Val.str "hi"), ("_local", Val.num 1)]⟩
    id (fun _ => [("id", Val.num 7)]) _ rfl
  refine ⟨rfl, h.1, ?_, ?_, ?_⟩
  · exact (h.2 "id").trans (by simp [getField, deleteKey])
  · exact (h.2 "text").trans (by simp [getField, deleteKey])
  · exact (h.2 "_local").trans (by simp [getField, deleteKey])

/-- C2: for every Adapter operation among create, update and delete, and
every set of registered hooks (their recording is the event trace, their
mutations the `beforeFn`/`afterFn` parameters), the observed event order of
a settled call is exactly: the before hook runs with the caller's object,
then the backend method is invoked with the sanitized copy (a copy stripped
of `_local`), then the caller's object is mutated in place (clear and
merge), then the after hook is invoked with the updated object.  No step is
reordered or skipped. -/
theorem adapter_pipeline_order (op : AdapterOp) (obj : JSObj)
    (beforeFn backend afterFn : Fields → Fields) (out : CycleOut)
    (h : StorageAdapter.runOp op obj beforeFn backend afterFn = Except.ok out) :
    out.trace =
      [Event.hookEvt (beforeHookName op) obj.fields,
       Event.backendEvt (storeFuncName op) (deleteKey (beforeFn obj.fields) "_local"),
       Event.mutateEvt obj.addr,
       Event.hookEvt (afterHookName op)
         (extendFields (keepOnly (beforeFn obj.fields) "_local")
           (backend (deleteKey (beforeFn obj.fields) "_local")))] := by
  have hout : out = StorageAdapter.cycle obj (storeFuncName op)
      (beforeHookName op) (afterHookName op) beforeFn backend afterFn := by
    cases op with
    | createOp =>
      simp only [StorageAdapter.runOp, StorageAdapter.create, Except.ok.injEq,
        storeFuncName, beforeHookName, afterHookName] at h ⊢
      exact h.symm
    | updateOp =>
      simp only [StorageAdapter.runOp, StorageAdapter.update,
        storeFuncName, beforeHookName, afterHookName] at h ⊢
      split at h
      · exact absurd h (by simp)
      · exact (Except.ok.inj h).symm
    | deleteOp =>
      simp only [StorageAdapter.runOp, StorageAdapter.delete,
        storeFuncName, beforeHookName, afterHookName] at h ⊢
      split at h
      · exact absurd h (by simp)
      · exact (Except.ok.inj h).symm
  subst hout
  rfl

/-- Witness for C2: a concrete `update` call records exactly
before-hook, backend call, mutation, after-hook, in that order. -/
theorem adapter_pipeline_order_witness :
    StorageAdapter.runOp AdapterOp.updateOp
        ⟨3, [("uuid", Val.str "u1"), ("_local", Val.bool true)]⟩
        id (fun _ => [("uuid", Val.str "u1")]) id
      = Except.ok (StorageAdapter.cycle
          ⟨3, [("uuid", Val.str "u1"), ("_local", Val.bool true)]⟩
          "update" "beforeAnnotationUpdated" "annotationUpdated"
          id (fun _ => [("uuid", Val.str "u1")]) id) ∧
    (StorageAdapter.cycle ⟨3, [("uuid", Val.str "u1"), ("_local", Val.bool true)]⟩
        "update" "beforeAnnotationUpdated" "annotationUpdated"
        id (fun _ => [("uuid", Val.str "u1")]) id).trace =
      [Event.hookEvt "beforeAnnotationUpdated"
         [("uuid", Val.str "u1"), ("_local", Val.bool true)],
       Event.backendEvt "update" [("uuid", Val.str "u1")],
       Event.mutateEvt 3,
       Event.hookEvt "annotationUpdated"
         [("_local", Val.bool true), ("uuid", Val.str "u1")]] := by
  have h := adapter_pipeline_order AdapterOp.updateOp
    ⟨3, [("uuid", Val.str "u1"), ("_local", Val.bool true)]⟩
    id (fun _ => [("uuid", Val.str "u1")]) id _ rfl
  exact ⟨rfl, h.trans (by simp [deleteKey, keepOnly, extendFields, dropKeysIn,
    hasKey, getField, beforeHookName, storeFuncName, afterHookName])⟩

/-- C3: `StorageAdapter.update` and `StorageAdapter.delete` on an annotation
whose `uuid` is undefined or null throw a `TypeError` immediately; no hook
runs and the backend is never called (the outcome is the same error for
every hook mutation and every backend). -/
theorem update_delete_require_uuid (obj : JSObj)
    (beforeFn backend afterFn : Fields → Fields)
    (h : uuidMissing obj.fields = true) :
    StorageAdapter.update obj beforeFn backend afterFn
        = Except.error JsError.typeError ∧
    StorageAdapter.delete obj beforeFn backend afterFn
        = Except.error JsError.typeError := by
  constructor <;> simp [StorageAdapter.update, StorageAdapter.delete, h]

/-- Witness for C3: an annotation without a `uuid` field, and one whose
`uuid` is null, are both rejected by `update` and `delete`. -/
theorem update_delete_require_uuid_witness :
    uuidMissing [("text", Val.str "x")] = true ∧
    uuidMissing [("uuid", Val.null)] = true ∧
    StorageAdapter.update ⟨0, [("text", Val.str "x")]⟩ id id id
        = Except.error JsError.typeError ∧
    StorageAdapter.delete ⟨1, [("uuid", Val.null)]⟩ id id id
        = Except.error JsError.typeError := by
  refine ⟨rfl, rfl, ?_, ?_⟩
  · exact (update_delete_require_uuid ⟨0, [("text", Val.str "x")]⟩ id id id rfl).1
  · exact (update_delete_require_uuid ⟨1, [("uuid", Val.null)]⟩ id id id rfl).2

/-!
Embedding of `HttpStorage` (`src/storage/httpStorage.js`).

`_apiRequest(action, obj)` stamps the caller's object in place with a fresh
`uuid`, the current document `uri` and `user = "hello"`, sends the request
with axios (body = the stamped object for PUT/POST, empty otherwise; for
`search` the `uri`/`user` are also passed as request parameters), and
returns `obj` — the axios response (`res`) is never used.  On a transport
error the catch block runs `this._onError.apply(self, arguments)`: there is
no local `self` in `_apiRequest`, so `self` is the browser global object,
and `arguments` are `_apiRequest`'s own arguments `(action, obj)`; hence
`_onError` executes with `this` bound to the global object and its `xhr`
parameter bound to the action string.  `_onError` first checks
`typeof this.onError === "function"`; browsers define `window.onerror`
(lowercase) but no `onError` property, so the check fails and no handler
runs.  `urlFor`/headers are not modelled: no claim depends on them.
-/

/-- Outcome of the axios transport: success with a response body, or a
failure carrying an HTTP status. -/
inductive Transport where
  | ok (respData : Fields)
  | fail (status : Option Int)

/-- Shallow embedding of `HttpStorage.prototype._methodFor`; `none` models
the `undefined` lookup result for an unknown action. -/
def HttpStorage.methodFor (action : String) : Option String :=
  if action = "create" then some "POST"
  else if action = "update" then some "PUT"
  else if action = "destroy" then some "DELETE"
  else if action = "search" then some "GET"
  else none

/-- Status code read of `xhr.status`: `none` when `xhr` is not an object
carrying a numeric `status` (every strict comparison in `_onError` is then
false). -/
def xhrStatus : Val → Option Int
  | Val.obj fs =>
    match getField fs "status" with
    | some (Val.num n) => some n
    | _ => none
  | _ => none

/-- Message chosen by `HttpStorage.prototype._onError` from the status. -/
def HttpStorage.statusMessage (st : Option Int) : String :=
  if st = some 400 then
    "The annotation store did not understand the request! (Error 400)"
  else if st = some 401 then
    "You must be logged in to perform this operation! (Error 401)"
  else if st = some 403 then
    "You don't have permission to perform this operation! (Error 403)"
  else if st = some 404 then
    "Could not connect to the annotation store! (Error 404)"
  else if st = some 500 then
    "Internal error in annotation store! (Error 500)"
  else
    "Unknown error while speaking to annotation store!"

/-- Shallow embedding of `HttpStorage.prototype._onError`, parameterized by
the receiver's `onError` slot (`some ()` when `this.onError` is a
function).  Returns the list of `(message, xhr)` calls delivered to that
handler. -/
def HttpStorage.onErrorFn (recvOnError : Option Unit) (xhr : Val) :
    List (String × Val) :=
  match recvOnError with
  | none => []
  | some _ => [(HttpStorage.statusMessage (xhrStatus xhr), xhr)]

/-- Value of `self.onError` inside `_apiRequest`'s catch block: `self` is
the browser global object, which has an `onerror` property but no `onError`
property, so the slot is empty. -/
def windowOnError : Option Unit := none

/-- Request data transmitted by one `_apiRequest` call. -/
structure SentReq where
  method : Option String
  dataSent : Fields
  params : Fields

/-- Observable outcome of one `_apiRequest` call: what was transmitted,
the value the returned promise resolves with, and every `(message, xhr)`
pair delivered to an `onError` handler. -/
structure ApiOutcome where
  sent : SentReq
  resolved : Fields
  onErrorRuns : List (String × Val)

/-- Shallow embedding of `HttpStorage.prototype._apiRequest`.  `genUuid` is
the value `this.UUID()` produces during this call and `uri` the value of
`window.location.href`. -/
def HttpStorage.apiRequest (action : String) (obj : Fields)
    (genUuid uri : String) (transport : Transport) : ApiOutcome :=
  let method := HttpStorage.methodFor action
  let obj1 := setField obj "uuid" (Val.str genUuid)
  let obj2 := setField obj1 "uri" (Val.str uri)
  let obj3 := setField obj2 "user" (Val.str "hello")
  let dataSent := if method = some "PUT" ∨ method = some "POST" then obj3 else []
  let params :=
    if action = "search" then [("uri", Val.str uri), ("user", Val.str "hello")]
    else []
  let errRuns :=
    match transport with
    | Transport.ok _ => []
    | Transport.fail _ => HttpStorage.onErrorFn windowOnError (Val.str action)
  { sent := { method := method, dataSent := dataSent, params := params },
    resolved := obj3,
    onErrorRuns := errRuns }

/-- Shallow embedding of `HttpStorage.prototype.create`. -/
def HttpStorage.create (ann : Fields) (genUuid uri : String)
    (transport : Transport) : ApiOutcome :=
  HttpStorage.apiRequest "create" ann genUuid uri transport

/-- Shallow embedding of `HttpStorage.prototype.update`. -/
def HttpStorage.update (ann : Fields) (genUuid uri : String)
    (transport : Transport) : ApiOutcome :=
  HttpStorage.apiRequest "update" ann genUuid uri transport

/-- Shallow embedding of `HttpStorage.prototype.delete`. -/
def HttpStorage.destroy (ann : Fields) (genUuid uri : String)
    (transport : Transport) : ApiOutcome :=
  HttpStorage.apiRequest "destroy" ann genUuid uri transport

/-- Outcome of `HttpStorage.prototype.query`: the resolved
`{results, meta}` value plus the transmitted request. -/
structure HttpQueryOut where
  results : Option Val
  meta : Fields
  sent : SentReq
  onErrorRuns : List (String × Val)

/-- Shallow embedding of `HttpStorage.prototype.query`: runs
`_apiRequest("search", queryObj)` and then reads `rows` off the object the
request resolved with — which is the stamped query object itself, not the
HTTP response. -/
def HttpStorage.query (queryObj : Fields) (genUuid uri : String)
    (transport : Transport) : HttpQueryOut :=
  let out := HttpStorage.apiRequest "search" queryObj genUuid uri transport
  let rows := getField out.resolved "rows"
  let meta := deleteKey out.resolved "rows"
  { results := rows, meta := meta, sent := out.sent,
    onErrorRuns := out.onErrorRuns }

/-- C4 (code bug): `HttpStorage.query` does not resolve to the response's
`rows`/`meta`.  `_apiRequest` awaits the axios call but returns the request
object, so `query` reads `rows` off the stamped query object: for an empty
query and a successful response `{rows: [{uuid: "a"}], total: 1}`, the call
resolves with `results` undefined and a `meta` that echoes the stamped
request instead of `{total: 1}`. -/
theorem http_query_ignores_response :
    HttpStorage.query [] "u" "http://d/"
        (Transport.ok [("rows", Val.arr [Val.obj [("uuid", Val.str "a")]]),
                       ("total", Val.num 1)])
      = { results := none,
          meta := [("uuid", Val.str "u"), ("uri", Val.str "http://d/"),
                   ("user", Val.str "hello")],
          sent := { method := some "GET", dataSent := [],
                    params := [("uri", Val.str "http://d/"),
                               ("user", Val.str "hello")] },
          onErrorRuns := [] } := by
  rfl

/-- C5 (code bug): on a transport failure with status 400, no `onError`
handler runs at all — the catch block applies `_onError` with `this` bound
to the browser global object (whose `onError` slot is empty), so the
configured handler is never invoked; the call still resolves with the
stamped request object.  Moreover, even a receiver that did have a handler
would get the unknown-error message, because `_onError` receives the
action string (from `arguments`) as its `xhr`, not the failed response. -/
theorem http_transport_failure_never_notifies :
    (HttpStorage.apiRequest "create" [] "u" "http://d/"
        (Transport.fail (some 400))).onErrorRuns = [] ∧
    (HttpStorage.apiRequest "create" [] "u" "http://d/"
        (Transport.fail (some 400))).resolved
      = [("uuid", Val.str "u"), ("uri", Val.str "http://d/"),
         ("user", Val.str "hello")] ∧
    HttpStorage.onErrorFn (some ()) (Val.str "create")
      = [("Unknown error while speaking to annotation store!",
          Val.str "create")] := by
  exact ⟨rfl, rfl, rfl⟩

/-- C10: every `_apiRequest` call — hence every HTTP backend operation
(create, update, delete, query) — mutates the caller's object before
transmission so that `user` is the constant `"hello"`, `uuid` is the value
freshly generated by `UUID()` during this call, and `uri` is the current
document location, overwriting whatever the caller had set; this holds on
every call, including repeated updates of the same annotation. -/
theorem http_request_stamps_user_and_uuid (action : String) (obj : Fields)
    (genUuid uri : String) (t : Transport) :
    getField (HttpStorage.apiRequest action obj genUuid uri t).resolved "user"
        = some (Val.str "hello") ∧
    getField (HttpStorage.apiRequest action obj genUuid uri t).resolved "uuid"
        = some (Val.str genUuid) ∧
    getField (HttpStorage.apiRequest action obj genUuid uri t).resolved "uri"
        = some (Val.str uri) := by
  unfold HttpStorage.apiRequest
  refine ⟨?_, ?_, ?_⟩ <;> simp [getField_setField]

/-!
Embedding of the key-value backing `Store` (the `LocalStore` helper over
`window.localStorage`).

The underlying storage maps string keys to JSON strings; a stored string is
modelled by its JSON parse (valid because `JSON.parse ∘ JSON.stringify` is
the identity on serializable values).  `JSON.stringify` itself is modelled
as a serializability gate: it throws a `TypeError` exactly on values
containing a circular reference (`Val.circ`).  Quota exhaustion is
modelled by a capacity on the number of entries: `setItem` fails when
asked to add a new key to a full storage — an abstraction of the quota
error whose only relevant property is that `setItem` can throw.

`Store.set` runs `value = JSON.stringify(value)` before and outside its
`try` block, so a serialization failure propagates to the caller.  A
`setItem` failure is caught, but the catch block calls
`this.publish('error', [error, this])` and `Store` defines no `publish`
method anywhere in this port (it carries no Evented mixin), so the catch
block itself throws `TypeError: this.publish is not a function` to the
caller; no error event is ever published.
`Store.get` returns `null` for an absent key (`JSON.parse(null)` is
`null`; the `remove` it performs on that path is a no-op).  `Store.all`
enumerates the storage's own keys, keeps those starting with the prefix,
and reads each back through `get` on the key with `KEY_PREFIX` sliced off.
`Store.clear` runs `for (key of localStorage)`: WHATWG `Storage` objects do
not implement the iterable protocol (no `Symbol.iterator`), so this
`for…of` throws a `TypeError` before any key is removed.
-/

mutual

/-- Whether `JSON.stringify` succeeds on the value (it throws on circular
structures, recursively). -/
def Val.serializable : Val → Bool
  | .circ => false
  | .arr l => serializableList l
  | .obj fs => serializableFields fs
  | _ => true

/-- Serializability of every element of an array. -/
def serializableList : List Val → Bool
  | [] => true
  | v :: vs => v.serializable && serializableList vs

/-- Serializability of every property value of an object. -/
def serializableFields : List (String × Val) → Bool
  | [] => true
  | p :: ps => p.2.serializable && serializableFields ps

end

/-- The browser's `window.localStorage`: entries (stored JSON strings,
modelled by their parses) plus a capacity modelling the quota. -/
structure WebStorage where
  entries : Fields
  quota : Nat

/-- `localStorage.getItem(k)`: `none` models the `null` result. -/
def WebStorage.getItem (st : WebStorage) (k : String) : Option Val :=
  getField st.entries k

/-- `localStorage.setItem(k, v)`: overwrites an existing key; adding a new
key to a full storage throws the quota error. -/
def WebStorage.setItem (st : WebStorage) (k : String) (v : Val) :
    Except JsError WebStorage :=
  if hasKey st.entries k then
    Except.ok { st with entries := setField st.entries k v }
  else if st.entries.length < st.quota then
    Except.ok { st with entries := st.entries ++ [(k, v)] }
  else Except.error JsError.quotaExceeded

/-- `localStorage.removeItem(k)`; idempotent. -/
def WebStorage.removeItem (st : WebStorage) (k : String) : WebStorage :=
  { st with entries := deleteKey st.entries k }

/-- `Store.prototype.KEY_PREFIX`. -/
def Store.KEY_PREFIX : String := "annotator.offline/"

/-- `Store.prototype.prefixed(key)`. -/
def Store.prefixed (k : String) : String := Store.KEY_PREFIX ++ k

/-- Model of `JSON.stringify` as a gate: the stored string is represented
by its parse, and stringification throws exactly on circular values. -/
def Store.stringify (v : Val) : Except JsError Val :=
  if Val.serializable v then Except.ok v else Except.error JsError.typeError

/-- JavaScript truthiness of the `time` argument of `Store.set` (absent,
`null` and `0` are falsy). -/
def timeTruthy : Option Int → Bool
  | none => false
  | some t => t != 0

/-- Shallow embedding of `Store.prototype.set`.  An `Except.error` is an
exception thrown to the caller: a serialization failure throws its
`TypeError` directly, and a `setItem` failure is caught but the catch
block's call to `this.publish` — a method `Store` does not define —
throws a `TypeError` in place of the caught quota error. -/
def Store.set (st : WebStorage) (k : String) (v : Val) (time : Option Int) :
    Except JsError WebStorage :=
  match Store.stringify v with
  | Except.error e => Except.error e
  | Except.ok sv =>
    if timeTruthy time then
      match st.setItem (Store.prefixed k) sv with
      | Except.ok st2 => Except.ok st2
      | Except.error _ => Except.error JsError.typeError
    else Except.ok st

/-- The storage state after `Store.set`, whether it returned or threw: a
thrown `set` happens either before any write (the serialization throw) or
after a failed write (the `publish` throw), so the storage is unchanged
in both cases. -/
def Store.setState (st : WebStorage) (k : String) (v : Val)
    (time : Option Int) : WebStorage :=
  match Store.set st k v time with
  | Except.ok st2 => st2
  | Except.error _ => st

/-- Shallow embedding of `Store.prototype.get`: reads the prefixed key and
parses; an absent key yields `null`. -/
def Store.get (st : WebStorage) (k : String) : Val :=
  match st.getItem (Store.prefixed k) with
  | some v => v
  | none => Val.null

/-- Shallow embedding of `Store.prototype.remove`. -/
def Store.remove (st : WebStorage) (k : String) : WebStorage :=
  st.removeItem (Store.prefixed k)

/-- Boolean test for `key.indexOf(prefix) == 0`. -/
def strStartsWith (s pre : String) : Bool := pre.data.isPrefixOf s.data

/-- `key.slice(n)` for ASCII keys. -/
def jsSlice (s : String) (n : Nat) : String := String.mk (s.data.drop n)

/-- Shallow embedding of `Store.prototype.all(partial)`: every stored value
whose key starts with `prefixed(partial)`, read back through `get` on the
key with `KEY_PREFIX` sliced off. -/
def Store.all (st : WebStorage) (sub : String) : List Val :=
  (st.entries.filter (fun p => strStartsWith p.1 (Store.prefixed sub))).map
    (fun p => Store.get st (jsSlice p.1 Store.KEY_PREFIX.length))

/-- The iterator `for…of` looks up on a `Storage` object: WHATWG `Storage`
declares no `Symbol.iterator`, so there is none and `for…of` throws. -/
def storageIterator (_st : WebStorage) : Option (List String) := none

/-- Shallow embedding of `Store.prototype.clear`: `for (key of
localStorage)` requires the iterable protocol, which `Storage` lacks, so
the loop header throws a `TypeError`; the (unreachable) loop body would
remove each enumerated key carrying the prefix. -/
def Store.clear (st : WebStorage) : Except JsError WebStorage :=
  match storageIterator st with
  | none => Except.error JsError.typeError
  | some keys =>
    Except.ok (keys.foldl
      (fun acc key =>
        if strStartsWith key Store.KEY_PREFIX then
          { acc with entries := deleteKey acc.entries key }
        else acc)
      st)

/-- C7: `Store.set` with a falsy or zero expiry writes nothing: the stored
state is unchanged and a subsequent `get` of the key (absent a prior
write) returns null. -/
theorem store_set_falsy_time_noop (st : WebStorage) (k : String) (v : Val)
    (time : Option Int) (h : timeTruthy time = false)
    (habs : st.getItem (Store.prefixed k) = none) :
    Store.setState st k v time = st ∧ Store.get st k = Val.null := by
  constructor
  · unfold Store.setState Store.set
    cases hs : Store.stringify v with
    | error e => simp
    | ok sv => simp [h]
  · unfold Store.get
    rw [habs]

/-- Witness for C7: a zero expiry leaves a concrete storage unchanged and
the key unreadable. -/
theorem store_set_falsy_time_noop_witness :
    timeTruthy (some 0) = false ∧
    Store.setState { entries := [("x", Val.null)], quota := 10 } "name"
        (Val.str "Aron") (some 0)
      = { entries := [("x", Val.null)], quota := 10 } ∧
    Store.get { entries := [("x", Val.null)], quota := 10 } "name"
      = Val.null := by
  refine ⟨rfl, ?_, ?_⟩
  · exact (store_set_falsy_time_noop { entries := [("x", Val.null)], quota := 10 }
      "name" (Val.str "Aron") (some 0) rfl rfl).1
  · exact (store_set_falsy_time_noop { entries := [("x", Val.null)], quota := 10 }
      "name" (Val.str "Aron") (some 0) rfl rfl).2

/-- C8 counterexample: `Store.set` throws to its caller on a value whose
JSON serialization fails — `value = JSON.stringify(value)` runs before and
outside the `try` block, so nothing publishes this failure as an event. -/
theorem store_set_throws_on_unserializable :
    Store.set { entries := [], quota := 10 } "k" Val.circ (some 100)
      = Except.error JsError.typeError := by
  rfl

/-- C8 as amended: `Store.set` raises every failure to its caller and
publishes nothing.  A value whose JSON serialization fails raises a
`TypeError` (the `stringify` runs before the `try`); an underlying-store
write failure (quota exhaustion) also raises a `TypeError`, because the
catch block calls `this.publish`, a method `Store` does not define, so no
failure is ever published as an error event.  `set` returns normally
exactly when serialization succeeds and the write is either skipped
(falsy expiry) or succeeds. -/
theorem store_set_raises_on_failure (st : WebStorage) (k : String)
    (v : Val) (time : Option Int) :
    (Val.serializable v = false →
      Store.set st k v time = Except.error JsError.typeError) ∧
    (∀ e, Val.serializable v = true → timeTruthy time = true →
      st.setItem (Store.prefixed k) v = Except.error e →
      Store.set st k v time = Except.error JsError.typeError) ∧
    (Val.serializable v = true → timeTruthy time = false →
      Store.set st k v time = Except.ok st) ∧
    (∀ st2, Val.serializable v = true → timeTruthy time = true →
      st.setItem (Store.prefixed k) v = Except.ok st2 →
      Store.set st k v time = Except.ok st2) := by
  refine ⟨?_, ?_, ?_, ?_⟩
  · intro h
    unfold Store.set Store.stringify
    rw [h]
    simp
  · intro e h ht hs
    unfold Store.set Store.stringify
    rw [h]
    simp [ht, hs]
  · intro h ht
    unfold Store.set Store.stringify
    rw [h]
    simp [ht]
  · intro st2 h ht hs
    unfold Store.set Store.stringify
    rw [h]
    simp [ht, hs]

/-- Witness for C8's amended claim: on a full concrete storage the write
fails and `set` raises a `TypeError` to its caller — the catch block's
`publish` call does not exist — instead of publishing an event and
returning normally. -/
theorem store_set_raises_on_failure_witness :
    Val.serializable (Val.str "v") = true ∧
    timeTruthy (some 5) = true ∧
    WebStorage.setItem { entries := [("a", Val.null)], quota := 1 }
        (Store.prefixed "k") (Val.str "v")
      = Except.error JsError.quotaExceeded ∧
    Store.set { entries := [("a", Val.null)], quota := 1 } "k" (Val.str "v")
        (some 5)
      = Except.error JsError.typeError := by
  refine ⟨rfl, rfl, rfl, ?_⟩
  exact (store_set_raises_on_failure
    { entries := [("a", Val.null)], quota := 1 } "k" (Val.str "v")
    (some 5)).2.1 JsError.quotaExceeded rfl rfl rfl

/-- C9 (code bug): `Store.clear` throws a `TypeError` on every storage
state — `for (key of localStorage)` needs an iterable, which a `Storage`
object is not — and removes nothing; here evaluated on a storage holding
both a namespaced and an unrelated key. -/
theorem store_clear_throws :
    Store.clear { entries := [("annotator.offline/annotation.x", Val.obj []),
                              ("unrelated", Val.null)], quota := 10 }
      = Except.error JsError.typeError := by
  rfl

/-!
String and association-list facts used to relate `Store.all` to the raw
storage entries.
-/

theorem data_append (s t : String) : (s ++ t).data = s.data ++ t.data := by
  cases s; cases t; rfl

theorem len_data (s : String) : s.length = s.data.length := by
  cases s; rfl

theorem string_append_assoc (a b c : String) :
    (a ++ b) ++ c = a ++ (b ++ c) := by
  cases a with
  | mk da =>
    cases b with
    | mk db =>
      cases c with
      | mk dc =>
        show String.mk ((da ++ db) ++ dc) = String.mk (da ++ (db ++ dc))
        rw [List.append_assoc]

theorem jsSlice_append (s t : String) : jsSlice (s ++ t) s.length = t := by
  cases s with
  | mk d =>
    cases t with
    | mk e =>
      simp [jsSlice, data_append, len_data]

theorem strStartsWith_iff (s pre : String) :
    strStartsWith s pre = true ↔ ∃ t, s = pre ++ t := by
  constructor
  · intro h
    have h2 : pre.data <+: s.data := by
      simpa [strStartsWith, List.isPrefixOf_iff_prefix] using h
    obtain ⟨t, ht⟩ := h2
    refine ⟨String.mk t, ?_⟩
    cases s with
    | mk d1 =>
      cases pre with
      | mk d2 =>
        show String.mk d1 = String.mk (d2 ++ t)
        exact congrArg String.mk ht.symm
  · rintro ⟨t, rfl⟩
    simp [strStartsWith, List.isPrefixOf_iff_prefix, data_append]

theorem mem_setField_self (fs : Fields) (k : String) (v : Val)
    (h : hasKey fs k = true) : (k, v) ∈ setField fs k v := by
  induction fs with
  | nil => simp [hasKey, getField] at h
  | cons p ps ih =>
    by_cases hp : p.1 = k
    · simp [setField, hp]
    · simp only [hasKey, getField, hp, if_neg hp] at h
      simp [setField, hp, ih h]

theorem keys_setField (fs : Fields) (k : String) (v : Val)
    (h : hasKey fs k = true) :
    (setField fs k v).map Prod.fst = fs.map Prod.fst := by
  induction fs with
  | nil => simp [hasKey, getField] at h
  | cons p ps ih =>
    by_cases hp : p.1 = k
    · simp [setField, hp]
    · simp only [hasKey, getField, hp, if_neg hp] at h
      simp [setField, hp, ih h]

theorem not_mem_keys_of_getField_none (fs : Fields) (k : String)
    (h : getField fs k = none) : k ∉ fs.map Prod.fst := by
  induction fs with
  | nil => simp
  | cons p ps ih =>
    by_cases hp : p.1 = k
    · simp [getField, hp] at h
    · simp only [getField, hp, if_neg hp] at h
      simp only [List.map, List.mem_cons]
      rintro (rfl | hmem)
      · exact hp rfl
      · exact ih h hmem

theorem getField_of_mem_nodup (fs : Fields) (p : String × Val)
    (hnd : (fs.map Prod.fst).Nodup) (hmem : p ∈ fs) :
    getField fs p.1 = some p.2 := by
  induction fs with
  | nil => cases hmem
  | cons q qs ih =>
    rcases List.mem_cons.mp hmem with rfl | htail
    · simp [getField]
    · have hnd2 := (List.nodup_cons.mp hnd).2
      have hq1 : q.1 ∉ qs.map Prod.fst := (List.nodup_cons.mp hnd).1
      have hne : ¬ (q.1 = p.1) := by
        intro hh
        exact hq1 (hh ▸ List.mem_map_of_mem Prod.fst htail)
      simp [getField, hne, ih hnd2 htail]

/-- Under distinct keys, `Store.all` returns exactly the stored values
whose keys carry the requested prefix. -/
theorem store_all_eq (st : WebStorage) (sub : String)
    (hnd : (st.entries.map Prod.fst).Nodup) :
    Store.all st sub
      = ((st.entries.filter
          (fun p => strStartsWith p.1 (Store.prefixed sub))).map Prod.snd) := by
  unfold Store.all
  apply List.map_congr_left
  intro p hp
  have hpred := List.of_mem_filter hp
  have hmem := List.mem_of_mem_filter hp
  obtain ⟨t, ht⟩ := (strStartsWith_iff p.1 (Store.prefixed sub)).mp hpred
  have hkey : p.1 = Store.KEY_PREFIX ++ (sub ++ t) := by
    rw [ht]
    show Store.prefixed sub ++ t = Store.KEY_PREFIX ++ (sub ++ t)
    unfold Store.prefixed
    exact string_append_assoc Store.KEY_PREFIX sub t
  have hslice : jsSlice p.1 Store.KEY_PREFIX.length = sub ++ t := by
    rw [hkey, jsSlice_append]
  have hget : st.getItem (Store.prefixed (sub ++ t)) = some p.2 := by
    show getField st.entries (Store.KEY_PREFIX ++ (sub ++ t)) = some p.2
    rw [← hkey]
    exact getField_of_mem_nodup st.entries p hnd hmem
  rw [hslice]
  unfold Store.get
  rw [hget]

/-!
Embedding of `LocalStorage` (`src/storage/localStorage.js`).

`create(annotation)` sets `annotation.uri` to the current location, lets
`getUniqueKey` reuse a truthy `uuid` or generate a fresh one (assigning it
to the annotation in place), persists the annotation through the backing
`Store` under the key `"annotation." + uuid` with a `3600` expiry, and
caches it under `annotation.id`; any error the backing store throws — the
serialization `TypeError` or the `TypeError` raised by the broken
`publish` call after a failed write — is caught and routed to the
configured `onError` handler.  `query(queryObj)` reads
all stored values under the annotation key prefix, keeps those objects
whose `uri` strictly equals the current location, refreshes the cache, and
returns `{results, meta: {total: results.length}}`.
-/

mutual

/-- JavaScript string conversion, used when a `uuid` value is concatenated
into the storage key (`ANNOTATION_PREFIX + uuid`). -/
def jsToString : Val → String
  | .null => "null"
  | .bool b => cond b "true" "false"
  | .num n => toString n
  | .str s => s
  | .arr l => jsArrJoin l
  | .obj _ => "[object Object]"
  | .circ => "[object Object]"

/-- `Array.prototype.toString`: elements joined with commas. -/
def jsArrJoin : List Val → String
  | [] => ""
  | [v] => jsArrElem v
  | v :: vs => jsArrElem v ++ "," ++ jsArrJoin vs

/-- One array element inside a join (`null` renders empty). -/
def jsArrElem : Val → String
  | .null => ""
  | .bool b => cond b "true" "false"
  | .num n => toString n
  | .str s => s
  | .arr l => jsArrJoin l
  | .obj _ => "[object Object]"
  | .circ => "[object Object]"

end

/-- `LocalStorage.prototype.ANNOTATION_PREFIX`. -/
def LocalStorage.ANNOTATION_PREFIX : String := "annotation."

/-- State owned by a `LocalStorage` backend: the backing storage plus the
uuid-to-annotation cache (keyed, in the source, by `annotation.id`). -/
structure LState where
  store : WebStorage
  cache : Fields

/-- Shallow embedding of `LocalStorage.prototype.getUniqueKey`: reuses a
truthy `uuid` (reassigning it in place) or assigns the freshly generated
one; returns the updated fields and the uuid value used for the key. -/
def LocalStorage.getUniqueKey (fs : Fields) (gen : String) : Fields × Val :=
  match getField fs "uuid" with
  | some v =>
    if v.truthy then (setField fs "uuid" v, v)
    else (setField fs "uuid" (Val.str gen), Val.str gen)
  | none => (setField fs "uuid" (Val.str gen), Val.str gen)

/-- Cache key used by `this.cache[annotation.id] = annotation` (an absent
`id` stringifies to `"undefined"`). -/
def LocalStorage.cacheIdKey (fs : Fields) : String :=
  match getField fs "id" with
  | some v => jsToString v
  | none => "undefined"

/-- Observable outcome of `LocalStorage.prototype.create`: resulting
state, the (mutated) annotation returned, and the errors routed to the
configured `onError` handler. -/
structure LCreateOut where
  state : LState
  ann : Fields
  onErrCalls : List JsError

/-- Shallow embedding of `LocalStorage.prototype.create`.  `uri` is
`window.location.href`; `gen` is the value `this.UUID()` would produce. -/
def LocalStorage.create (uri gen : String) (st : LState) (fs : Fields) :
    LCreateOut :=
  let fs1 := setField fs "uri" (Val.str uri)
  let pr := LocalStorage.getUniqueKey fs1 gen
  let fs2 := pr.1
  let key := LocalStorage.ANNOTATION_PREFIX ++ jsToString pr.2
  match Store.set st.store key (Val.obj fs2) (some 3600) with
  | Except.ok store2 =>
    { state := { store := store2,
                 cache := setField st.cache (LocalStorage.cacheIdKey fs2)
                            (Val.obj fs2) },
      ann := fs2, onErrCalls := [] }
  | Except.error e =>
    { state := st, ann := fs2, onErrCalls := [e] }

/-- The retention test of `loadAnnotationsFromStore`: the stored value is
truthy, has an own `uri` property, and that property strictly equals the
current location (only objects can pass). -/
def LocalStorage.uriMatches (uri : String) (a : Val) : Bool :=
  match a with
  | Val.obj fs =>
    hasKey fs "uri" &&
      (match getField fs "uri" with
       | some (Val.str s) => s == uri
       | _ => false)
  | _ => false

/-- Outcome of `LocalStorage.prototype.query`: the resolved results and
`meta.total`, plus the state with the refreshed cache. -/
structure LQueryOut where
  results : List Val
  total : Nat
  state : LState

/-- Shallow embedding of `LocalStorage.prototype.query` (via
`loadAnnotationsFromStore`). -/
def LocalStorage.query (uri : String) (st : LState) : LQueryOut :=
  let anns := Store.all st.store LocalStorage.ANNOTATION_PREFIX
  let current := anns.filter (LocalStorage.uriMatches uri)
  let cache2 := current.foldl
    (fun c a =>
      match a with
      | Val.obj afs => setField c (LocalStorage.cacheIdKey afs) a
      | _ => c)
    st.cache
  { results := current, total := current.length,
    state := { store := st.store, cache := cache2 } }

theorem setItem_ok_spec (st : WebStorage) (k : String) (v : Val)
    (st2 : WebStorage) (h : st.setItem k v = Except.ok st2) :
    getField st2.entries k = some v ∧ (k, v) ∈ st2.entries ∧
    ((st.entries.map Prod.fst).Nodup → (st2.entries.map Prod.fst).Nodup) := by
  unfold WebStorage.setItem at h
  by_cases hk : hasKey st.entries k = true
  · rw [if_pos hk] at h
    have h2 := Except.ok.inj h
    subst h2
    refine ⟨?_, ?_, ?_⟩
    · rw [getField_setField]; simp
    · exact mem_setField_self _ _ _ hk
    · intro hnd
      show ((setField st.entries k v).map Prod.fst).Nodup
      rw [keys_setField _ _ _ hk]
      exact hnd
  · simp only [Bool.not_eq_true] at hk
    rw [hk] at h
    simp only [Bool.false_eq_true, if_false] at h
    by_cases hlt : st.entries.length < st.quota
    · rw [if_pos hlt] at h
      have h2 := Except.ok.inj h
      subst h2
      have hnone : getField st.entries k = none := by
        unfold hasKey at hk
        cases hg : getField st.entries k with
        | none => rfl
        | some w => rw [hg] at hk; simp at hk
      refine ⟨?_, ?_, ?_⟩
      · rw [getField_append, hnone]
        simp [getField]
      · simp
      · intro hnd
        show ((st.entries ++ [(k, v)]).map Prod.fst).Nodup
        rw [List.map_append]
        rw [List.nodup_append]
        refine ⟨hnd, by simp, ?_⟩
        intro a ha hb
        simp only [List.map_cons, List.map_nil, List.mem_singleton] at hb
        subst hb
        exact not_mem_keys_of_getField_none st.entries a hnone ha
    · rw [if_neg hlt] at h
      cases h

theorem getUniqueKey_getField_ne (fs : Fields) (gen : String) (j : String)
    (hj : ¬ (j = "uuid")) :
    getField (LocalStorage.getUniqueKey fs gen).1 j = getField fs j := by
  unfold LocalStorage.getUniqueKey
  cases hg : getField fs "uuid" with
  | none =>
    simp only [hg]
    rw [getField_setField]
    simp [hj]
  | some v =>
    simp only [hg]
    by_cases hv : v.truthy = true
    · simp only [hv, if_true]
      rw [getField_setField]
      simp [hj]
    · simp only [Bool.not_eq_true] at hv
      simp only [hv, Bool.false_eq_true, if_false]
      rw [getField_setField]
      simp [hj]

theorem store_set_ok_write (st : WebStorage) (k : String) (v : Val)
    (time : Option Int) (st2 : WebStorage)
    (ht : timeTruthy time = true)
    (h : Store.set st k v time = Except.ok st2) :
    st.setItem (Store.prefixed k) v = Except.ok st2 := by
  unfold Store.set at h
  cases hser : Store.stringify v with
  | error e => rw [hser] at h; cases h
  | ok sv =>
    have hsv : sv = v := by
      unfold Store.stringify at hser
      split at hser
      · exact (Except.ok.inj hser).symm
      · cases hser
    subst hsv
    rw [hser] at h
    simp only [ht, if_true] at h
    cases hsi : st.setItem (Store.prefixed k) sv with
    | ok st3 =>
      rw [hsi] at h
      exact congrArg Except.ok (Except.ok.inj h)
    | error e =>
      rw [hsi] at h
      cases h

theorem prefixed_annotation_startsWith (u : String) :
    strStartsWith (Store.prefixed (LocalStorage.ANNOTATION_PREFIX ++ u))
      (Store.prefixed LocalStorage.ANNOTATION_PREFIX) = true := by
  apply (strStartsWith_iff _ _).mpr
  refine ⟨u, ?_⟩
  unfold Store.prefixed
  exact (string_append_assoc _ _ _).symm

/-- C6: on the Local backend, after `create(A)` genuinely succeeds (no
error routed to `onError`, which under the store's real semantics is
exactly a persisted write), a `query` on the resulting state with the
same current document URI returns a result set that contains an entry
whose `uuid` equals the uuid `create` assigned to `A`; the results are
exactly the stored records under the annotation key prefix whose `uri`
equals the current URI, and `meta.total` is the number of results.  The
backing storage is assumed to hold distinct keys, as the browser's
`localStorage` does. -/
theorem local_create_query_roundtrip (uri gen : String) (st : LState)
    (fs : Fields)
    (hnd : (st.store.entries.map Prod.fst).Nodup)
    (herr : (LocalStorage.create uri gen st fs).onErrCalls = []) :
    (∃ rfs, Val.obj rfs ∈
        (LocalStorage.query uri (LocalStorage.create uri gen st fs).state).results ∧
        getField rfs "uuid"
          = getField (LocalStorage.create uri gen st fs).ann "uuid") ∧
    (LocalStorage.query uri (LocalStorage.create uri gen st fs).state).results
      = List.filter (LocalStorage.uriMatches uri)
          (List.map Prod.snd
            (List.filter
              (fun p => strStartsWith p.1
                (Store.prefixed LocalStorage.ANNOTATION_PREFIX))
              (LocalStorage.create uri gen st fs).state.store.entries)) ∧
    (LocalStorage.query uri (LocalStorage.create uri gen st fs).state).total
      = (LocalStorage.query uri
          (LocalStorage.create uri gen st fs).state).results.length := by
  cases hs : Store.set st.store
      (LocalStorage.ANNOTATION_PREFIX ++
        jsToString (LocalStorage.getUniqueKey
          (setField fs "uri" (Val.str uri)) gen).2)
      (Val.obj (LocalStorage.getUniqueKey
        (setField fs "uri" (Val.str uri)) gen).1)
      (some 3600) with
  | error e =>
    exfalso
    have hx : (LocalStorage.create uri gen st fs).onErrCalls = [e] := by
      unfold LocalStorage.create
      simp only [hs]
    rw [herr] at hx
    cases hx
  | ok store2 =>
    have hcreate : LocalStorage.create uri gen st fs =
        { state := { store := store2,
                     cache := setField st.cache
                       (LocalStorage.cacheIdKey (LocalStorage.getUniqueKey
                         (setField fs "uri" (Val.str uri)) gen).1)
                       (Val.obj (LocalStorage.getUniqueKey
                         (setField fs "uri" (Val.str uri)) gen).1) },
          ann := (LocalStorage.getUniqueKey
            (setField fs "uri" (Val.str uri)) gen).1,
          onErrCalls := [] } := by
      unfold LocalStorage.create
      simp only [hs]
    have hsi := store_set_ok_write st.store
      (LocalStorage.ANNOTATION_PREFIX ++
        jsToString (LocalStorage.getUniqueKey
          (setField fs "uri" (Val.str uri)) gen).2)
      (Val.obj (LocalStorage.getUniqueKey
        (setField fs "uri" (Val.str uri)) gen).1)
      (some 3600) store2 rfl hs
    obtain ⟨hget2, hmem2, hndf⟩ := setItem_ok_spec st.store _ _ store2 hsi
    have hnd2 := hndf hnd
    have huri : getField (LocalStorage.getUniqueKey
        (setField fs "uri" (Val.str uri)) gen).1 "uri"
        = some (Val.str uri) := by
      rw [getUniqueKey_getField_ne _ _ _ (by decide)]
      rw [getField_setField]
      simp
    have hmatch : LocalStorage.uriMatches uri
        (Val.obj (LocalStorage.getUniqueKey
          (setField fs "uri" (Val.str uri)) gen).1) = true := by
      simp [LocalStorage.uriMatches, hasKey, huri]
    have hresults : (LocalStorage.query uri
        (LocalStorage.create uri gen st fs).state).results
        = List.filter (LocalStorage.uriMatches uri)
            (List.map Prod.snd
              (List.filter
                (fun p => strStartsWith p.1
                  (Store.prefixed LocalStorage.ANNOTATION_PREFIX))
                (LocalStorage.create uri gen st fs).state.store.entries)) := by
      rw [hcreate]
      show List.filter (LocalStorage.uriMatches uri)
          (Store.all store2 LocalStorage.ANNOTATION_PREFIX) = _
      rw [store_all_eq store2 LocalStorage.ANNOTATION_PREFIX hnd2]
    refine ⟨?_, hresults, ?_⟩
    · refine ⟨(LocalStorage.getUniqueKey
        (setField fs "uri" (Val.str uri)) gen).1, ?_, ?_⟩
      · rw [hresults, hcreate]
        apply List.mem_filter.mpr
        refine ⟨?_, hmatch⟩
        apply List.mem_map.mpr
        refine ⟨(Store.prefixed (LocalStorage.ANNOTATION_PREFIX ++
            jsToString (LocalStorage.getUniqueKey
              (setField fs "uri" (Val.str uri)) gen).2),
            Val.obj (LocalStorage.getUniqueKey
              (setField fs "uri" (Val.str uri)) gen).1), ?_, rfl⟩
        apply List.mem_filter.mpr
        exact ⟨hmem2, prefixed_annotation_startsWith _⟩
      · rw [hcreate]
    · rfl

/-- Witness for C6: creating `{text: "hi"}` on an empty storage and
querying the same URI returns exactly the created record, whose `uuid` is
the one `create` assigned, with `meta.total` equal to the result count. -/
theorem local_create_query_roundtrip_witness :
    (LocalStorage.query "http://ex/"
        (LocalStorage.create "http://ex/" "u1"
          { store := { entries := [], quota := 10 }, cache := [] }
          [("text", Val.str "hi")]).state).results
      = [Val.obj [("text", Val.str "hi"), ("uri", Val.str "http://ex/"),
                  ("uuid", Val.str "u1")]] ∧
    getField (LocalStorage.create "http://ex/" "u1"
        { store := { entries := [], quota := 10 }, cache := [] }
        [("text", Val.str "hi")]).ann "uuid" = some (Val.str "u1") ∧
    (LocalStorage.query "http://ex/"
        (LocalStorage.create "http://ex/" "u1"
          { store := { entries := [], quota := 10 }, cache := [] }
          [("text", Val.str "hi")]).state).total
      = (LocalStorage.query "http://ex/"
          (LocalStorage.create "http://ex/" "u1"
            { store := { entries := [], quota := 10 }, cache := [] }
            [("text", Val.str "hi")]).state).results.length := by
  have h := local_create_query_roundtrip "http://ex/" "u1"
    { store := { entries := [], quota := 10 }, cache := [] }
    [("text", Val.str "hi")] (by simp) rfl
  exact ⟨rfl, rfl, h.2.2⟩
